import Mathlib

/-!
Verification of the `create-next-app` scaffolding orchestrator
(`packages/create-next-app/create-app.ts`).

The orchestrator is embedded as a deterministic interpreter over an
abstract environment of collaborators (URL parsing, repository lookups,
filesystem probes, the fetch transport).  The interpreter records an
event trace so that ordering properties of the pipeline stages can be
stated and checked, and threads an explicit association-list filesystem
so that the post-fetch normalization steps can be stated and checked.
-/

namespace CreateNextApp

/-- A filesystem path, as its list of segments.  `path.join(root, f)`
appends one segment; `path.resolve` of a request path yields a
single-segment absolute path. -/
abbrev Path := List String

def pathResolve (s : String) : Path := [s]

def pathJoin (p : Path) (s : String) : Path := p ++ [s]

def pathDirname (p : Path) : Path := p.dropLast

def pathBasename (p : Path) : String := p.getLast?.getD ""

/-- The files of the target directory: an association list from path to
file content.  Contents are tracked as provenance markers (the source a
file was copied from), which is all the orchestrator observes. -/
abbrev FS := List (Path × String)

/-- `fs.existsSync`. -/
def existsSync (fs : FS) (p : Path) : Bool := (fs.lookup p).isSome

/-- Read a file's content marker. -/
def readFile (fs : FS) (p : Path) : Option String := fs.lookup p

/-- `fs.copyFileSync(src, dst)`: an overwriting copy (no exclusive
flag is passed in the source), recorded by fronting the new entry. -/
def copyFileSync (src : String) (dst : Path) (fs : FS) : FS := (dst, src) :: fs

/-- Modelled from the spec: the template system's
`getTemplateFile(templateKind, languageMode, fileId) -> path`
(`packages/create-next-app/templates` is not under the sources studied
here); it returns the path of one template file, determined by the
template kind, the language mode and the file id. -/
def getTemplateFile (template mode file : String) : String :=
  "templates/" ++ template ++ "/" ++ mode ++ "/" ++ file

/-- A JavaScript value carried by a rejected fetch promise: either an
error-like object (one with a string `message` property) or any other
value together with its string coercion (`reason + ''`). -/
inductive JSValue where
  | errObj (message : String)
  | raw (coerced : String)
deriving DecidableEq, Repr

/-- The `isErrorLike` predicate of `createApp`'s catch block. -/
def isErrorLike : JSValue → Bool
  | JSValue.errObj _ => true
  | JSValue.raw _ => false

/-- The message the thrown `DownloadError` carries:
`isErrorLike(reason) ? reason.message : reason + ''`. -/
def downloadErrorMessage : JSValue → String
  | JSValue.errObj m => m
  | JSValue.raw s => s

/-- An error thrown by `new URL(example)`, identified by its `code`. -/
structure JSErr where
  code : String
deriving DecidableEq, Repr

/-- A parsed WHATWG URL, reduced to the `origin` the orchestrator
inspects. -/
structure URLObj where
  origin : String
deriving DecidableEq, Repr

/-- `RepoInfo` from `helpers/examples`. -/
structure RepoInfo where
  username : String
  name : String
  branch : String
  filePath : String
deriving DecidableEq, Repr

/-- Which download the retry wrapper drives: a repository subtree or a
named example archive. -/
inductive FetchKind where
  | repo (info : RepoInfo)
  | exampleArchive (name : String)
deriving DecidableEq, Repr

/-- Observable events of one run, in order of occurrence. -/
inductive Event where
  | parseURLEv
  | getRepoInfoEv
  | hasRepoEv
  | existsInRepoEv
  | isWriteableEv
  | makeDirEv
  | isFolderEmptyEv
  | fetchAttempt (k : Nat)
  | installEv
  | installTemplateEv
deriving DecidableEq, Repr

/-- The collaborators of the orchestrator, as the spec's external
interface contracts: URL parsing, `getRepoInfo`/`hasRepo`/`existsInRepo`
from `helpers/examples`, the writability and emptiness probes, the fetch
transport (indexed by the attempt number, returning the deposited files
on success), and the initial filesystem state. -/
structure Env where
  parseURL : String → Except JSErr URLObj
  getRepoInfo : URLObj → Option String → Option RepoInfo
  hasRepo : RepoInfo → Bool
  existsInRepo : String → Bool
  isWriteable : Path → Bool
  isFolderEmpty : Path → String → Bool
  fetch : FetchKind → Nat → Except JSValue FS
  initFS : FS

/-- The request record passed to `createApp`. -/
structure Request where
  appPath : String
  packageManager : String
  exampleName : Option String
  examplePath : Option String
  typescript : Bool
  experimentalApp : Bool

/-- JavaScript truthiness of the optional `example` string: `undefined`
and the empty string are falsy. -/
def exTruthy : Option String → Bool
  | none => false
  | some s => !(s == "")

/-- `mode = typescript ? 'ts' : 'js'`. -/
def modeOf (req : Request) : String := if req.typescript then "ts" else "js"

/-- `template = experimentalApp ? 'app' : 'default'`. -/
def templateOf (req : Request) : String :=
  if req.experimentalApp then "app" else "default"

/-- Modelled from the spec: the external bounded-retry combinator
wrapping both fetch strategies (the `async-retry` dependency is not
among the sources studied here).  Per the spec it performs up to 3
attempts total, the transport owning backoff; it is generic over the
fallible operation.  `retryRun op fuel k` runs attempts `k`,
`k+1`, ... while `fuel` attempts remain, stops at the first success,
and surfaces the last attempt's error.  The pair returned is the total
number of invocations made and the final result. -/
def retryRun {ε α : Type} (op : Nat → Except ε α) : Nat → Nat → Nat × Except ε α
  | 0, k => (k, op k)
  | 1, k => (k + 1, op k)
  | n + 2, k =>
    match op k with
    | Except.ok v => (k + 1, Except.ok v)
    | Except.error _ => retryRun op (n + 1) (k + 1)

/-- The example-resolution stage (`create-app.ts` lines 50-109): parse
the example as a URL; a parse failure with code `ERR_INVALID_URL` routes
to the named-example catalog check, any other parse failure is fatal; a
parsed URL must have the GitHub origin, then `getRepoInfo` and `hasRepo`
must succeed.  Returns the emitted events and either a fatal exit code
or the optional `RepoInfo`. -/
def resolveStage (env : Env) (exampleName : Option String) (examplePath : Option String) :
    List Event × Except Nat (Option RepoInfo) :=
  if exTruthy exampleName then
    let ex := exampleName.getD ""
    match env.parseURL ex with
    | Except.error e =>
      if e.code ≠ "ERR_INVALID_URL" then
        ([Event.parseURLEv], Except.error 1)
      else
        if ex ≠ "__internal-testing-retry" then
          if env.existsInRepo ex then
            ([Event.parseURLEv, Event.existsInRepoEv], Except.ok none)
          else
            ([Event.parseURLEv, Event.existsInRepoEv], Except.error 1)
        else
          ([Event.parseURLEv], Except.ok none)
    | Except.ok url =>
      if url.origin ≠ "https://github.com" then
        ([Event.parseURLEv], Except.error 1)
      else
        match env.getRepoInfo url examplePath with
        | none => ([Event.parseURLEv, Event.getRepoInfoEv], Except.error 1)
        | some info =>
          if env.hasRepo info then
            ([Event.parseURLEv, Event.getRepoInfoEv, Event.hasRepoEv],
              Except.ok (some info))
          else
            ([Event.parseURLEv, Event.getRepoInfoEv, Event.hasRepoEv],
              Except.error 1)
  else
    ([], Except.ok none)

/-- The post-fetch normalization (`create-app.ts` lines 181-197): copy a
default `.gitignore` only when none exists, then, when `tsconfig.json`
is present, copy `next-env.d.ts` from the `ts`-mode template
unconditionally (an overwriting copy). -/
def normalizeExample (template mode : String) (root : Path) (fs : FS) : FS :=
  let ignorePath := pathJoin root ".gitignore"
  let fs1 :=
    if existsSync fs ignorePath then fs
    else copyFileSync (getTemplateFile template mode "gitignore") ignorePath fs
  let tsconfigPath := pathJoin root "tsconfig.json"
  if existsSync fs1 tsconfigPath then
    copyFileSync (getTemplateFile template "ts" "next-env.d.ts")
      (pathJoin root "next-env.d.ts") fs1
  else
    fs1

/-- How one run ends: `process.exit(code)`, a thrown `DownloadError`
with its message, or normal completion carrying `hasPackageJson`. -/
inductive Outcome where
  | exited (code : Nat)
  | downloadError (message : String)
  | completed (hasPackageJson : Bool)
deriving DecidableEq, Repr

/-- The observable result of one run. -/
structure RunResult where
  outcome : Outcome
  trace : List Event
  fs : FS
deriving DecidableEq, Repr

/-- The fetch strategy selected by the resolver output. -/
def fetchKindOf (ri : Option RepoInfo) (ex : String) : FetchKind :=
  match ri with
  | some info => FetchKind.repo info
  | none => FetchKind.exampleArchive ex

/-- The trace of the transport invocations a retry run made. -/
def fetchEvents (n : Nat) : List Event := (List.range n).map Event.fetchAttempt

/-- The orchestrator `createApp`: resolution (when an example is given),
then the writability validation of the target's parent, then directory
preparation with the emptiness check, then either the retried example
fetch followed by normalization and the conditional install, or the
template materialization. -/
def createApp (env : Env) (req : Request) : RunResult :=
  match resolveStage env req.exampleName req.examplePath with
  | (tr, Except.error code) => ⟨Outcome.exited code, tr, env.initFS⟩
  | (tr, Except.ok repoInfo) =>
    let root := pathResolve req.appPath
    let tr1 := tr ++ [Event.isWriteableEv]
    if !(env.isWriteable (pathDirname root)) then
      ⟨Outcome.exited 1, tr1, env.initFS⟩
    else
      let appName := pathBasename root
      let tr2 := tr1 ++ [Event.makeDirEv, Event.isFolderEmptyEv]
      if !(env.isFolderEmpty root appName) then
        ⟨Outcome.exited 1, tr2, env.initFS⟩
      else
        if exTruthy req.exampleName then
          let kind := fetchKindOf repoInfo (req.exampleName.getD "")
          let r := retryRun (env.fetch kind) 3 0
          let tr3 := tr2 ++ fetchEvents r.1
          match r.2 with
          | Except.error cause =>
            ⟨Outcome.downloadError (downloadErrorMessage cause), tr3, env.initFS⟩
          | Except.ok fsFetched =>
            let fsN := normalizeExample (templateOf req) (modeOf req) root fsFetched
            let hasPackageJson := existsSync fsN (pathJoin root "package.json")
            let tr4 := tr3 ++ (if hasPackageJson then [Event.installEv] else [])
            ⟨Outcome.completed hasPackageJson, tr4, fsN⟩
        else
          ⟨Outcome.completed false, tr2 ++ [Event.installTemplateEv], env.initFS⟩

/-- The event trace of one run. -/
def createAppTrace (env : Env) (req : Request) : List Event :=
  (createApp env req).trace

/-! ### Trace-order machinery -/

/-- Resolution-stage events: URL parse, `getRepoInfo`, `hasRepo` and the
named-example catalog check. -/
def isResolutionEvent : Event → Bool
  | Event.parseURLEv => true
  | Event.getRepoInfoEv => true
  | Event.hasRepoEv => true
  | Event.existsInRepoEv => true
  | _ => false

/-- A transport invocation of the retried fetch. -/
def isFetchEvent : Event → Bool
  | Event.fetchAttempt _ => true
  | _ => false

def isWriteEv (e : Event) : Bool := e == Event.isWriteableEv

def isMakeDirEv (e : Event) : Bool := e == Event.makeDirEv

/-- Index of the first event satisfying `p`, if any. -/
def firstIdx (p : Event → Bool) : List Event → Option Nat
  | [] => none
  | e :: tr => if p e then some 0 else (firstIdx p tr).map (· + 1)

/-- Whenever a `q`-event occurs, a `p`-event occurs strictly before the
first `q`-event. -/
def firstBefore (p q : Event → Bool) (tr : List Event) : Bool :=
  match firstIdx q tr with
  | none => true
  | some j =>
    match firstIdx p tr with
    | none => false
    | some i => decide (i < j)

/-- No `p`-event occurs at or after the first `q`-event. -/
def noneFromFirst (q p : Event → Bool) (tr : List Event) : Bool :=
  match firstIdx q tr with
  | none => true
  | some j => (tr.drop j).all fun e => !(p e)

/-- Claim C2's stated stage order: the writability validation before any
resolution event, the validation before directory creation, directory
creation before any fetch attempt. -/
def claimedStageOrder (tr : List Event) : Bool :=
  firstBefore isWriteEv isResolutionEvent tr &&
  firstBefore isWriteEv isMakeDirEv tr &&
  firstBefore isMakeDirEv isFetchEvent tr

/-- The order the code actually implements: all resolution events strictly
before the writability validation, the validation before directory
creation, directory creation before any fetch attempt. -/
def amendedStageOrder (tr : List Event) : Bool :=
  noneFromFirst isWriteEv isResolutionEvent tr &&
  firstBefore isWriteEv isMakeDirEv tr &&
  firstBefore isMakeDirEv isFetchEvent tr

/-! ### Retry helper lemmas -/

lemma retryRun3_ok0 {ε α : Type} (op : Nat → Except ε α) (v : α)
    (h0 : op 0 = Except.ok v) : retryRun op 3 0 = (1, Except.ok v) := by
  simp [retryRun, h0]

lemma retryRun3_ok1 {ε α : Type} (op : Nat → Except ε α) (e0 : ε) (v : α)
    (h0 : op 0 = Except.error e0) (h1 : op 1 = Except.ok v) :
    retryRun op 3 0 = (2, Except.ok v) := by
  simp [retryRun, h0, h1]

lemma retryRun3_ok2 {ε α : Type} (op : Nat → Except ε α) (e0 e1 : ε) (v : α)
    (h0 : op 0 = Except.error e0) (h1 : op 1 = Except.error e1)
    (h2 : op 2 = Except.ok v) : retryRun op 3 0 = (3, Except.ok v) := by
  simp [retryRun, h0, h1, h2]

lemma retryRun3_err {ε α : Type} (op : Nat → Except ε α) (e0 e1 e2 : ε)
    (h0 : op 0 = Except.error e0) (h1 : op 1 = Except.error e1)
    (h2 : op 2 = Except.error e2) :
    retryRun op 3 0 = (3, Except.error e2) := by
  simp [retryRun, h0, h1, h2]

lemma retryRun3_cases {ε α : Type} (op : Nat → Except ε α) :
    (∃ v, retryRun op 3 0 = (1, Except.ok v)) ∨
    (∃ v, retryRun op 3 0 = (2, Except.ok v)) ∨
    (∃ v, retryRun op 3 0 = (3, Except.ok v)) ∨
    (∃ e, retryRun op 3 0 = (3, Except.error e)) := by
  cases h0 : op 0 with
  | ok v => exact Or.inl ⟨v, retryRun3_ok0 op v h0⟩
  | error e0 =>
    cases h1 : op 1 with
    | ok v => exact Or.inr (Or.inl ⟨v, retryRun3_ok1 op e0 v h0 h1⟩)
    | error e1 =>
      cases h2 : op 2 with
      | ok v => exact Or.inr (Or.inr (Or.inl ⟨v, retryRun3_ok2 op e0 e1 v h0 h1 h2⟩))
      | error e2 => exact Or.inr (Or.inr (Or.inr ⟨e2, retryRun3_err op e0 e1 e2 h0 h1 h2⟩))

/-! ### Trace-shape lemmas -/

lemma resolveStage_trace_resolution (env : Env) (ex ep : Option String) :
    ((resolveStage env ex ep).1.all isResolutionEvent) = true := by
  unfold resolveStage
  dsimp only
  repeat' split
  all_goals rfl

lemma resolution_not_write {e : Event} (h : isResolutionEvent e = true) :
    isWriteEv e = false := by
  cases e <;> first | rfl | simp_all [isResolutionEvent]

lemma resolution_not_mkdir {e : Event} (h : isResolutionEvent e = true) :
    isMakeDirEv e = false := by
  cases e <;> first | rfl | simp_all [isResolutionEvent]

lemma resolution_not_fetch {e : Event} (h : isResolutionEvent e = true) :
    isFetchEvent e = false := by
  cases e <;> first | rfl | simp_all [isResolutionEvent]

lemma firstIdx_cons {p : Event → Bool} {e : Event} {tr : List Event}
    (h : p e = false) :
    firstIdx p (e :: tr) = (firstIdx p tr).map (· + 1) := by
  simp [firstIdx, h]

lemma noneFromFirst_cons {q p : Event → Bool} {e : Event} {tr : List Event}
    (hq : q e = false) :
    noneFromFirst q p (e :: tr) = noneFromFirst q p tr := by
  unfold noneFromFirst
  rw [firstIdx_cons hq]
  cases h : firstIdx q tr with
  | none => rfl
  | some j => simp [List.drop_succ_cons]

lemma firstBefore_cons {p q : Event → Bool} {e : Event} {tr : List Event}
    (hp : p e = false) (hq : q e = false) :
    firstBefore p q (e :: tr) = firstBefore p q tr := by
  unfold firstBefore
  rw [firstIdx_cons hp, firstIdx_cons hq]
  cases hjq : firstIdx q tr with
  | none => rfl
  | some j =>
    cases hip : firstIdx p tr with
    | none => rfl
    | some i =>
      simp only [Option.map_some]
      show decide (i + 1 < j + 1) = decide (i < j)
      exact decide_eq_decide.mpr (by omega)

lemma amendedStageOrder_cons {e : Event} {tr : List Event}
    (h : isResolutionEvent e = true) (ht : amendedStageOrder tr = true) :
    amendedStageOrder (e :: tr) = true := by
  have hw := resolution_not_write h
  have hm := resolution_not_mkdir h
  have hf := resolution_not_fetch h
  unfold amendedStageOrder at ht ⊢
  rw [noneFromFirst_cons hw, firstBefore_cons hw hm, firstBefore_cons hm hf]
  exact ht

lemma amendedStageOrder_append {tr₀ tr : List Event}
    (h : ∀ e ∈ tr₀, isResolutionEvent e = true)
    (ht : amendedStageOrder tr = true) :
    amendedStageOrder (tr₀ ++ tr) = true := by
  induction tr₀ with
  | nil => simpa using ht
  | cons e es ih =>
    simp only [List.cons_append]
    exact amendedStageOrder_cons (h e (List.mem_cons_self e es))
      (ih fun x hx => h x (List.mem_cons_of_mem e hx))

/-- A concrete run used to exhibit the actual stage order: a named
example that the catalog reports as existing, with every filesystem
probe succeeding. -/
def envX : Env :=
  { parseURL := fun _ => Except.error ⟨"ERR_INVALID_URL"⟩
    getRepoInfo := fun _ _ => none
    hasRepo := fun _ => false
    existsInRepo := fun _ => true
    isWriteable := fun _ => true
    isFolderEmpty := fun _ _ => true
    fetch := fun _ _ => Except.ok []
    initFS := [] }

def reqX : Request :=
  { appPath := "myapp"
    packageManager := "npm"
    exampleName := some "with-docker"
    examplePath := none
    typescript := false
    experimentalApp := false }

/-- C2 counterexample: on a concrete run with a named example, the
catalog existence check (a resolution event) occurs before the
writability validation, so the claimed order "validate before any
resolution or remote existence check" is false on the code. -/
theorem c2_stage_order_counterexample :
    claimedStageOrder (createAppTrace envX reqX) = false := by rfl

/-- C2 (amended): the stages execute in the order resolve (when an
example is given) then validate (writability of the target's parent)
then prepare the target directory then fetch: every resolution or
remote-existence event precedes the writability validation, which
precedes directory creation, which precedes every fetch attempt. -/
theorem c2_stage_order_amended (env : Env) (req : Request) :
    amendedStageOrder (createAppTrace env req) = true := by
  have htr0 := resolveStage_trace_resolution env req.exampleName req.examplePath
  unfold createAppTrace createApp
  rcases hres : resolveStage env req.exampleName req.examplePath with ⟨tr0, res⟩
  rw [hres] at htr0
  have h0 : ∀ e ∈ tr0, isResolutionEvent e = true := by
    simpa [List.all_eq_true] using htr0
  cases res with
  | error code =>
    show amendedStageOrder tr0 = true
    simpa using amendedStageOrder_append h0 (show amendedStageOrder [] = true from rfl)
  | ok ri =>
    dsimp only
    split
    · show amendedStageOrder (tr0 ++ [Event.isWriteableEv]) = true
      exact amendedStageOrder_append h0 rfl
    · split
      · show amendedStageOrder
          ((tr0 ++ [Event.isWriteableEv]) ++ [Event.makeDirEv, Event.isFolderEmptyEv]) = true
        rw [List.append_assoc]
        exact amendedStageOrder_append h0 (by decide)
      · split
        · rcases retryRun3_cases
            (env.fetch (fetchKindOf ri (req.exampleName.getD ""))) with
            ⟨v, hr⟩ | ⟨v, hr⟩ | ⟨v, hr⟩ | ⟨e, hr⟩ <;>
          rw [hr] <;> dsimp only <;>
          [skip; skip; skip;
            (simp only [List.append_assoc]
             exact amendedStageOrder_append h0 (by decide))] <;>
          split <;>
          (simp only [List.append_assoc]
           exact amendedStageOrder_append h0 (by decide))
        · show amendedStageOrder
            (((tr0 ++ [Event.isWriteableEv]) ++ [Event.makeDirEv, Event.isFolderEmptyEv]) ++
              [Event.installTemplateEv]) = true
          simp only [List.append_assoc]
          exact amendedStageOrder_append h0 (by decide)

/-- C1: the retry wrapper both fetch strategies run through bounds the
work to 3 attempts total.  If the underlying fetch fails exactly twice
then succeeds, the overall fetch succeeds having invoked the transport
exactly 3 times; if it always fails, the overall fetch fails after
exactly 3 attempts and the surfaced message (what the `DownloadError`
will carry) is the last underlying failure's message. -/
theorem c1_retry_bounds (op : Nat → Except JSValue FS) (v : FS) (m : Nat → String) :
    ((∃ e0 e1, op 0 = Except.error e0 ∧ op 1 = Except.error e1) →
      op 2 = Except.ok v → retryRun op 3 0 = (3, Except.ok v)) ∧
    ((∀ k, op k = Except.error (JSValue.errObj (m k))) →
      retryRun op 3 0 = (3, Except.error (JSValue.errObj (m 2))) ∧
      downloadErrorMessage (JSValue.errObj (m 2)) = m 2) := by
  constructor
  · rintro ⟨e0, e1, h0, h1⟩ h2
    exact retryRun3_ok2 op e0 e1 v h0 h1 h2
  · intro h
    exact ⟨retryRun3_err op _ _ _ (h 0) (h 1) (h 2), rfl⟩

/-- A transport that fails on its first two invocations then succeeds. -/
def opTwiceW : Nat → Except JSValue FS := fun k =>
  if k < 2 then Except.error (JSValue.errObj "boom") else Except.ok []

/-- A transport that fails on every invocation, with distinct messages. -/
def opFailW : Nat → Except JSValue FS := fun k =>
  Except.error (JSValue.errObj ("fail" ++ toString k))

/-- C1 witness: the retry bound evaluated on the two concrete
transports. -/
theorem c1_retry_bounds_witness :
    retryRun opTwiceW 3 0 = (3, Except.ok []) ∧
    retryRun opFailW 3 0 =
      (3, Except.error (JSValue.errObj ("fail" ++ toString 2))) ∧
    downloadErrorMessage (JSValue.errObj ("fail" ++ toString 2)) =
      "fail" ++ toString 2 := by
  refine ⟨?_, ?_, ?_⟩
  · exact (c1_retry_bounds opTwiceW [] fun _ => "").1 ⟨_, _, rfl, rfl⟩ rfl
  · exact ((c1_retry_bounds opFailW [] fun k => "fail" ++ toString k).2
      fun k => rfl).1
  · exact ((c1_retry_bounds opFailW [] fun k => "fail" ++ toString k).2
      fun k => rfl).2

/-- C4: an example that parses as a URL with a non-GitHub origin makes
the run exit fatally (code 1) with only the URL parse performed: no
directory is created and the filesystem is untouched. -/
theorem c4_non_github_origin (env : Env) (req : Request) (ex : String) (url : URLObj)
    (hex : req.exampleName = some ex) (hne : ex ≠ "")
    (hp : env.parseURL ex = Except.ok url)
    (ho : url.origin ≠ "https://github.com") :
    createApp env req = ⟨Outcome.exited 1, [Event.parseURLEv], env.initFS⟩ ∧
    Event.makeDirEv ∉ (createApp env req).trace := by
  have hT : exTruthy req.exampleName = true := by
    rw [hex]; simp [exTruthy, hne]
  have hres : resolveStage env req.exampleName req.examplePath =
      ([Event.parseURLEv], Except.error 1) := by
    unfold resolveStage
    rw [hT, hex]
    dsimp only [Option.getD]
    rw [hp]
    simp [ho]
  have happ : createApp env req = ⟨Outcome.exited 1, [Event.parseURLEv], env.initFS⟩ := by
    unfold createApp
    rw [hres]
  refine ⟨happ, ?_⟩
  rw [happ]
  show Event.makeDirEv ∉ [Event.parseURLEv]
  decide

/-- C8: a URL-parse failure is routed on its error code: a code other
than `ERR_INVALID_URL` is fatal with only the parse performed (the
named-example path is never entered), while `ERR_INVALID_URL` routes the
string to the named-example catalog check (unless it is the internal
testing sentinel), whose outcome decides between proceeding with no
repo reference and a fatal exit. -/
theorem c8_parse_error_routing (env : Env) (req : Request) (ex : String) (e : JSErr)
    (hex : req.exampleName = some ex) (hne : ex ≠ "")
    (hp : env.parseURL ex = Except.error e) :
    (e.code ≠ "ERR_INVALID_URL" →
      createApp env req = ⟨Outcome.exited 1, [Event.parseURLEv], env.initFS⟩) ∧
    (e.code = "ERR_INVALID_URL" → ex ≠ "__internal-testing-retry" →
      resolveStage env req.exampleName req.examplePath =
        ([Event.parseURLEv, Event.existsInRepoEv],
          if env.existsInRepo ex then Except.ok none else Except.error 1)) := by
  have hT : exTruthy req.exampleName = true := by
    rw [hex]; simp [exTruthy, hne]
  constructor
  · intro hcode
    have hres : resolveStage env req.exampleName req.examplePath =
        ([Event.parseURLEv], Except.error 1) := by
      unfold resolveStage
      rw [hT, hex]
      dsimp only [Option.getD]
      rw [hp]
      simp [hcode]
    unfold createApp
    rw [hres]
  · intro hcode hsent
    unfold resolveStage
    rw [hT, hex]
    dsimp only [Option.getD]
    rw [hp]
    simp only [hcode, ne_eq, not_true_eq_false, if_false, hsent, not_false_eq_true,
      if_true]
    split <;> rfl

/-! ### Filesystem lemmas -/

lemma pathJoin_inj {root : Path} {a b : String} (h : pathJoin root a = pathJoin root b) :
    a = b := by
  unfold pathJoin at h
  simpa using List.append_cancel_left h

lemma pathJoin_ne {root : Path} {a b : String} (h : a ≠ b) :
    pathJoin root a ≠ pathJoin root b :=
  fun hEq => h (pathJoin_inj hEq)

lemma readFile_copy_same (src : String) (dst : Path) (fs : FS) :
    readFile (copyFileSync src dst fs) dst = some src := by
  simp [readFile, copyFileSync, List.lookup]

lemma readFile_copy_other (src : String) (dst p : Path) (fs : FS) (h : p ≠ dst) :
    readFile (copyFileSync src dst fs) p = readFile fs p := by
  have hb : (p == dst) = false := beq_eq_false_iff_ne.mpr h
  simp [readFile, copyFileSync, List.lookup, hb]

lemma existsSync_copy_other (src : String) (dst p : Path) (fs : FS) (h : p ≠ dst) :
    existsSync (copyFileSync src dst fs) p = existsSync fs p := by
  have hb : (p == dst) = false := beq_eq_false_iff_ne.mpr h
  simp [existsSync, copyFileSync, List.lookup, hb]

/-- C6: after a successful example fetch, `next-env.d.ts` is present in
the target directory exactly when `tsconfig.json` was present after the
fetch, and its content is always the `ts`-mode template file, whatever
language mode the request carried. -/
theorem c6_next_env_iff_tsconfig (template mode : String) (root : Path) (fs : FS) :
    (existsSync fs (pathJoin root "tsconfig.json") = true →
      readFile (normalizeExample template mode root fs) (pathJoin root "next-env.d.ts") =
        some (getTemplateFile template "ts" "next-env.d.ts")) ∧
    (existsSync fs (pathJoin root "tsconfig.json") = false →
      readFile (normalizeExample template mode root fs) (pathJoin root "next-env.d.ts") =
        readFile fs (pathJoin root "next-env.d.ts")) := by
  have hdne : pathJoin root ".gitignore" ≠ pathJoin root "tsconfig.json" := by
    exact pathJoin_ne (by decide)
  have hne2 : pathJoin root "next-env.d.ts" ≠ pathJoin root ".gitignore" := by
    exact pathJoin_ne (by decide)
  have htsne : pathJoin root "tsconfig.json" ≠ pathJoin root ".gitignore" := by
    exact pathJoin_ne (by decide)
  unfold normalizeExample
  cases hig : existsSync fs (pathJoin root ".gitignore") with
  | true =>
    simp only [hig, if_true]
    constructor
    · intro hts
      rw [if_pos hts]
      exact readFile_copy_same _ _ _
    · intro hts
      rw [if_neg (by rw [hts]; exact Bool.false_ne_true)]
  | false =>
    simp only [hig, Bool.false_eq_true, if_false]
    constructor
    · intro hts
      rw [if_pos (by rw [existsSync_copy_other _ _ _ _ htsne]; exact hts)]
      exact readFile_copy_same _ _ _
    · intro hts
      rw [if_neg (by rw [existsSync_copy_other _ _ _ _ htsne, hts]; exact Bool.false_ne_true)]
      exact readFile_copy_other _ _ _ _ hne2

/-- C7: after a successful example fetch, the `.gitignore` step is a
no-op when the fetched files already contain one, and otherwise writes
exactly the default template `.gitignore`. -/
theorem c7_gitignore_default (template mode : String) (root : Path) (fs : FS) :
    (existsSync fs (pathJoin root ".gitignore") = true →
      readFile (normalizeExample template mode root fs) (pathJoin root ".gitignore") =
        readFile fs (pathJoin root ".gitignore")) ∧
    (existsSync fs (pathJoin root ".gitignore") = false →
      readFile (normalizeExample template mode root fs) (pathJoin root ".gitignore") =
        some (getTemplateFile template mode "gitignore")) := by
  have hne1 : pathJoin root ".gitignore" ≠ pathJoin root "next-env.d.ts" := by
    exact pathJoin_ne (by decide)
  have htsne : pathJoin root "tsconfig.json" ≠ pathJoin root ".gitignore" := by
    exact pathJoin_ne (by decide)
  unfold normalizeExample
  cases hig : existsSync fs (pathJoin root ".gitignore") with
  | true =>
    simp only [hig, if_true]
    constructor
    · intro _
      split
      · exact readFile_copy_other _ _ _ _ hne1
      · rfl
    · intro h
      exact Bool.noConfusion h
  | false =>
    simp only [hig, Bool.false_eq_true, if_false]
    constructor
    · intro h
      exact h.elim
    · intro _
      split
      · rw [readFile_copy_other _ _ _ _ hne1]
        exact readFile_copy_same _ _ _
      · exact readFile_copy_same _ _ _

/-- C9: when `tsconfig.json` is present after the fetch, the
`next-env.d.ts` copy is an overwriting one — a `next-env.d.ts` the
example provided is replaced by the `ts` template's version — unlike
`.gitignore`, which is preserved when present. -/
theorem c9_next_env_overwrites (template mode : String) (root : Path) (fs : FS)
    (v w : String)
    (hv : readFile fs (pathJoin root "next-env.d.ts") = some v)
    (hts : existsSync fs (pathJoin root "tsconfig.json") = true)
    (hw : readFile fs (pathJoin root ".gitignore") = some w) :
    readFile (normalizeExample template mode root fs) (pathJoin root "next-env.d.ts") =
      some (getTemplateFile template "ts" "next-env.d.ts") ∧
    readFile (normalizeExample template mode root fs) (pathJoin root ".gitignore") =
      some w := by
  have hig : existsSync fs (pathJoin root ".gitignore") = true := by
    unfold existsSync
    unfold readFile at hw
    rw [hw]
    rfl
  have hne1 : pathJoin root ".gitignore" ≠ pathJoin root "next-env.d.ts" := by
    exact pathJoin_ne (by decide)
  unfold normalizeExample
  simp only [hig, if_true, hts, if_pos]
  constructor
  · exact readFile_copy_same _ _ _
  · rw [readFile_copy_other _ _ _ _ hne1]
    exact hw

/-! ### Runs that reach the fetch branch -/

lemma exTruthy_some {ex : String} (hne : ex ≠ "") : exTruthy (some ex) = true := by
  simp [exTruthy, hne]

/-- Shape of a run that reaches the retried fetch: resolution succeeded,
the parent is writable, the target is empty, the example is truthy. -/
lemma createApp_fetch_run (env : Env) (req : Request) (ex : String)
    (ri : Option RepoInfo) (tr0 : List Event)
    (hex : req.exampleName = some ex) (hne : ex ≠ "")
    (hres : resolveStage env req.exampleName req.examplePath = (tr0, Except.ok ri))
    (hw : env.isWriteable (pathDirname (pathResolve req.appPath)) = true)
    (hemp : env.isFolderEmpty (pathResolve req.appPath)
      (pathBasename (pathResolve req.appPath)) = true) :
    createApp env req =
      (let r := retryRun (env.fetch (fetchKindOf ri ex)) 3 0
      let tr2 := tr0 ++ [Event.isWriteableEv] ++ [Event.makeDirEv, Event.isFolderEmptyEv]
      let tr3 := tr2 ++ fetchEvents r.1
      match r.2 with
      | Except.error cause =>
        ⟨Outcome.downloadError (downloadErrorMessage cause), tr3, env.initFS⟩
      | Except.ok fsFetched =>
        let fsN := normalizeExample (templateOf req) (modeOf req)
          (pathResolve req.appPath) fsFetched
        let hasPackageJson := existsSync fsN (pathJoin (pathResolve req.appPath) "package.json")
        ⟨Outcome.completed hasPackageJson,
          tr3 ++ (if hasPackageJson then [Event.installEv] else []), fsN⟩) := by
  unfold createApp
  rw [hres]
  dsimp only
  rw [hw]
  rw [hemp]
  rw [hex]
  rw [exTruthy_some hne]
  dsimp only [Option.getD, Bool.not_true, List.append_assoc]
  cases hr : (retryRun (env.fetch (fetchKindOf ri ex)) 3 0).2 with
  | error cause => rfl
  | ok fsF => rfl

/-- Membership of a non-resolution event in a resolution trace is
impossible. -/
lemma not_mem_resolution_trace {tr0 : List Event} {e : Event}
    (h : ∀ x ∈ tr0, isResolutionEvent x = true) (he : isResolutionEvent e = false) :
    e ∉ tr0 := by
  intro hmem
  rw [h e hmem] at he
  exact Bool.noConfusion he

/-- C5: when the retried fetch still fails after the bound is exhausted,
the run surfaces the distinguished download error whose message is the
last cause's message when that cause is error-like, or the cause's
string coercion otherwise; the failure propagates (the run does not fall
back to template materialization). -/
theorem c5_download_error_wrapping (env : Env) (req : Request) (ex : String)
    (ri : Option RepoInfo) (tr0 : List Event) (cause : Nat → JSValue)
    (hex : req.exampleName = some ex) (hne : ex ≠ "")
    (hres : resolveStage env req.exampleName req.examplePath = (tr0, Except.ok ri))
    (hw : env.isWriteable (pathDirname (pathResolve req.appPath)) = true)
    (hemp : env.isFolderEmpty (pathResolve req.appPath)
      (pathBasename (pathResolve req.appPath)) = true)
    (hf : ∀ k, env.fetch (fetchKindOf ri ex) k = Except.error (cause k)) :
    (createApp env req).outcome = Outcome.downloadError (downloadErrorMessage (cause 2)) ∧
    Event.installTemplateEv ∉ (createApp env req).trace ∧
    (∀ msg, downloadErrorMessage (JSValue.errObj msg) = msg) ∧
    (∀ s, downloadErrorMessage (JSValue.raw s) = s) := by
  have happ := createApp_fetch_run env req ex ri tr0 hex hne hres hw hemp
  rw [retryRun3_err _ _ _ _ (hf 0) (hf 1) (hf 2)] at happ
  dsimp only at happ
  have hall := resolveStage_trace_resolution env req.exampleName req.examplePath
  rw [hres] at hall
  have h0 : ∀ x ∈ tr0, isResolutionEvent x = true := by
    simpa [List.all_eq_true] using hall
  have hnot : Event.installTemplateEv ∉ tr0 :=
    not_mem_resolution_trace h0 rfl
  refine ⟨by rw [happ], ?_, fun _ => rfl, fun _ => rfl⟩
  rw [happ]
  dsimp only
  intro hmem
  rcases List.mem_append.mp hmem with hmem | hmem
  · rcases List.mem_append.mp hmem with hmem | hmem
    · rcases List.mem_append.mp hmem with hmem | hmem
      · exact hnot hmem
      · exact absurd hmem (by decide)
    · exact absurd hmem (by decide)
  · exact absurd hmem (by decide)

/-- C3: on the example path, `hasPackageJson` is true exactly when
`package.json` exists in the target directory after the fetch/normalize
phase (the run's final filesystem), and the dependency installer runs
exactly when that flag is true — never speculatively. -/
theorem c3_install_iff_manifest (env : Env) (req : Request) (ex : String)
    (ri : Option RepoInfo) (tr0 : List Event) (fsF : FS)
    (hex : req.exampleName = some ex) (hne : ex ≠ "")
    (hres : resolveStage env req.exampleName req.examplePath = (tr0, Except.ok ri))
    (hw : env.isWriteable (pathDirname (pathResolve req.appPath)) = true)
    (hemp : env.isFolderEmpty (pathResolve req.appPath)
      (pathBasename (pathResolve req.appPath)) = true)
    (hf : (retryRun (env.fetch (fetchKindOf ri ex)) 3 0).2 = Except.ok fsF) :
    (createApp env req).outcome =
      Outcome.completed (existsSync (createApp env req).fs
        (pathJoin (pathResolve req.appPath) "package.json")) ∧
    (Event.installEv ∈ (createApp env req).trace ↔
      existsSync (createApp env req).fs
        (pathJoin (pathResolve req.appPath) "package.json") = true) := by
  have happ := createApp_fetch_run env req ex ri tr0 hex hne hres hw hemp
  dsimp only at happ
  rw [hf] at happ
  dsimp only at happ
  have hall := resolveStage_trace_resolution env req.exampleName req.examplePath
  rw [hres] at hall
  have h0 : ∀ x ∈ tr0, isResolutionEvent x = true := by
    simpa [List.all_eq_true] using hall
  have hnot : Event.installEv ∉ tr0 :=
    not_mem_resolution_trace h0 rfl
  rw [happ]
  dsimp only
  constructor
  · rfl
  · cases hpj : existsSync
      (normalizeExample (templateOf req) (modeOf req) (pathResolve req.appPath) fsF)
      (pathJoin (pathResolve req.appPath) "package.json") with
    | true =>
      rw [if_pos rfl]
      constructor
      · intro _
        rfl
      · intro _
        refine List.mem_append.mpr (Or.inr ?_)
        decide
    | false =>
      rw [if_neg (fun h => Bool.noConfusion h), List.append_nil]
      constructor
      · intro hmem
        exfalso
        rcases List.mem_append.mp hmem with hmem | hmem
        · rcases List.mem_append.mp hmem with hmem | hmem
          · rcases List.mem_append.mp hmem with hmem | hmem
            · exact hnot hmem
            · exact absurd hmem (by decide)
          · exact absurd hmem (by decide)
        · have hfe : Event.installEv ∈ fetchEvents (retryRun
              (env.fetch (fetchKindOf ri ex)) 3 0).1 := hmem
          unfold fetchEvents at hfe
          rcases List.mem_map.mp hfe with ⟨k, _, hk⟩
          exact Event.noConfusion hk
      · intro h
        exact Bool.noConfusion h

/-- C10: a present-but-empty example string is falsy, so the run
behaves exactly as if no example were given: the whole run is equal to
the no-example run, no resolution or fetch event ever occurs, and
whenever the run does not exit early, the template-materialization path
is the one taken. -/
theorem c10_empty_example (env : Env) (req : Request)
    (hex : req.exampleName = some "") :
    createApp env req = createApp env { req with exampleName := none } ∧
    (∀ e ∈ (createApp env req).trace,
      isResolutionEvent e = false ∧ isFetchEvent e = false) ∧
    ((createApp env req).outcome ≠ Outcome.exited 1 →
      Event.installTemplateEv ∈ (createApp env req).trace) := by
  have hT : exTruthy req.exampleName = false := by rw [hex]; rfl
  have hres : resolveStage env req.exampleName req.examplePath = ([], Except.ok none) := by
    unfold resolveStage
    rw [hT]
    rfl
  have hchar : createApp env req = ⟨Outcome.exited 1, [Event.isWriteableEv], env.initFS⟩ ∨
      createApp env req = ⟨Outcome.exited 1,
        [Event.isWriteableEv, Event.makeDirEv, Event.isFolderEmptyEv], env.initFS⟩ ∨
      createApp env req = ⟨Outcome.completed false,
        [Event.isWriteableEv, Event.makeDirEv, Event.isFolderEmptyEv,
          Event.installTemplateEv], env.initFS⟩ := by
    unfold createApp
    rw [hres]
    dsimp only
    rw [hT]
    cases hW : env.isWriteable (pathDirname (pathResolve req.appPath)) with
    | false =>
      left
      rw [if_pos (by decide)]
      rfl
    | true =>
      rw [if_neg (by decide)]
      cases hE : env.isFolderEmpty (pathResolve req.appPath)
          (pathBasename (pathResolve req.appPath)) with
      | false =>
        right; left
        rw [if_pos (by decide)]
        rfl
      | true =>
        right; right
        rw [if_neg (by decide), if_neg (by decide)]
        rfl
  refine ⟨?_, ?_, ?_⟩
  · unfold createApp
    rw [hres]
    dsimp only
    rw [hT]
    rfl
  · rcases hchar with h | h | h <;> rw [h] <;> intro e he <;>
      simp only [List.mem_cons, List.not_mem_nil, or_false] at he <;>
      rcases he with rfl | rfl | rfl | rfl <;> exact ⟨rfl, rfl⟩
  · rcases hchar with h | h | h <;> rw [h]
    · intro hno; exact absurd rfl hno
    · intro hno; exact absurd rfl hno
    · intro _
      show Event.installTemplateEv ∈ [Event.isWriteableEv, Event.makeDirEv,
        Event.isFolderEmptyEv, Event.installTemplateEv]
      decide

/-! ### Concrete witnesses -/

/-- A request whose example field is the empty string. -/
def reqE : Request :=
  { appPath := "myapp"
    packageManager := "npm"
    exampleName := some ""
    examplePath := none
    typescript := false
    experimentalApp := false }

/-- C10 witness: the empty-example run equals the no-example run on a
concrete environment. -/
theorem c10_empty_example_witness :
    createApp envX reqE = createApp envX { reqE with exampleName := none } :=
  (c10_empty_example envX reqE rfl).1

/-- An environment whose URL parser accepts every string with a
non-GitHub origin. -/
def envBadOrigin : Env :=
  { envX with parseURL := fun _ => Except.ok ⟨"https://notgithub.com"⟩ }

def reqBad : Request :=
  { appPath := "myapp"
    packageManager := "npm"
    exampleName := some "https://notgithub.com/x/y"
    examplePath := none
    typescript := false
    experimentalApp := false }

/-- C4 witness: the non-GitHub-origin run evaluated on a concrete
environment. -/
theorem c4_non_github_origin_witness :
    createApp envBadOrigin reqBad =
      ⟨Outcome.exited 1, [Event.parseURLEv], envBadOrigin.initFS⟩ ∧
    Event.makeDirEv ∉ (createApp envBadOrigin reqBad).trace :=
  c4_non_github_origin envBadOrigin reqBad "https://notgithub.com/x/y"
    ⟨"https://notgithub.com"⟩ rfl (by decide) rfl (by decide)

/-- An environment whose fetch transport always fails with an
error-like cause. -/
def envFail : Env :=
  { envX with fetch := fun _ _ => Except.error (JSValue.errObj "net down") }

/-- C5 witness: the exhausted-retries run evaluated on a concrete
environment. -/
theorem c5_download_error_wrapping_witness :
    (createApp envFail reqX).outcome =
      Outcome.downloadError (downloadErrorMessage (JSValue.errObj "net down")) ∧
    Event.installTemplateEv ∉ (createApp envFail reqX).trace := by
  have h := c5_download_error_wrapping envFail reqX "with-docker" none
    [Event.parseURLEv, Event.existsInRepoEv] (fun _ => JSValue.errObj "net down")
    rfl (by decide) rfl rfl rfl (fun _ => rfl)
  exact ⟨h.1, h.2.1⟩

/-- The files a concrete successful fetch deposits: a manifest only. -/
def fsPkgW : FS :=
  [(pathJoin (pathResolve "myapp") "package.json", "example-package-json")]

/-- An environment whose fetch succeeds immediately with `fsPkgW`. -/
def envPkg : Env := { envX with fetch := fun _ _ => Except.ok fsPkgW }

/-- C3 witness: the install-iff-manifest property evaluated on a
concrete fetched filesystem containing `package.json`. -/
theorem c3_install_iff_manifest_witness :
    (createApp envPkg reqX).outcome =
      Outcome.completed (existsSync (createApp envPkg reqX).fs
        (pathJoin (pathResolve reqX.appPath) "package.json")) ∧
    (Event.installEv ∈ (createApp envPkg reqX).trace ↔
      existsSync (createApp envPkg reqX).fs
        (pathJoin (pathResolve reqX.appPath) "package.json") = true) :=
  c3_install_iff_manifest envPkg reqX "with-docker" none
    [Event.parseURLEv, Event.existsInRepoEv] fsPkgW rfl (by decide) rfl rfl rfl rfl

/-- A fetched filesystem containing only `tsconfig.json`. -/
def fsTsW : FS :=
  [(pathJoin (pathResolve "myapp") "tsconfig.json", "example-tsconfig")]

/-- C6 witness: with `tsconfig.json` present and a `js`-mode request,
the copied `next-env.d.ts` is the `ts` template's file. -/
theorem c6_next_env_iff_tsconfig_witness :
    readFile (normalizeExample "default" "js" (pathResolve "myapp") fsTsW)
      (pathJoin (pathResolve "myapp") "next-env.d.ts") =
      some (getTemplateFile "default" "ts" "next-env.d.ts") :=
  (c6_next_env_iff_tsconfig "default" "js" (pathResolve "myapp") fsTsW).1 rfl

/-- C7 witness: with no `.gitignore` in the fetched files, exactly the
default template `.gitignore` is written. -/
theorem c7_gitignore_default_witness :
    readFile (normalizeExample "default" "js" (pathResolve "myapp") fsTsW)
      (pathJoin (pathResolve "myapp") ".gitignore") =
      some (getTemplateFile "default" "js" "gitignore") :=
  (c7_gitignore_default "default" "js" (pathResolve "myapp") fsTsW).2 rfl

/-- A fetched filesystem that already provides `next-env.d.ts`,
`tsconfig.json` and `.gitignore`. -/
def fsFullW : FS :=
  [(pathJoin (pathResolve "myapp") "next-env.d.ts", "example-next-env"),
    (pathJoin (pathResolve "myapp") "tsconfig.json", "example-tsconfig"),
    (pathJoin (pathResolve "myapp") ".gitignore", "example-gitignore")]

/-- C9 witness: the example's own `next-env.d.ts` is replaced by the
`ts` template's version while its `.gitignore` is preserved. -/
theorem c9_next_env_overwrites_witness :
    readFile (normalizeExample "app" "js" (pathResolve "myapp") fsFullW)
      (pathJoin (pathResolve "myapp") "next-env.d.ts") =
      some (getTemplateFile "app" "ts" "next-env.d.ts") ∧
    readFile (normalizeExample "app" "js" (pathResolve "myapp") fsFullW)
      (pathJoin (pathResolve "myapp") ".gitignore") = some "example-gitignore" :=
  c9_next_env_overwrites "app" "js" (pathResolve "myapp") fsFullW
    "example-next-env" "example-gitignore" rfl rfl rfl

/-- An environment whose URL parser fails with a code other than
`ERR_INVALID_URL`. -/
def envOdd : Env :=
  { envX with parseURL := fun _ => Except.error ⟨"ERR_SOMETHING"⟩ }

/-- C8 witness: both routings of a URL-parse failure, evaluated on
concrete environments (a non-`ERR_INVALID_URL` code exits fatally after
the parse alone; the `ERR_INVALID_URL` code routes to the catalog
check). -/
theorem c8_parse_error_routing_witness :
    createApp envOdd reqX = ⟨Outcome.exited 1, [Event.parseURLEv], envOdd.initFS⟩ ∧
    resolveStage envX reqX.exampleName reqX.examplePath =
      ([Event.parseURLEv, Event.existsInRepoEv],
        if envX.existsInRepo "with-docker" then Except.ok none else Except.error 1) := by
  constructor
  · exact (c8_parse_error_routing envOdd reqX "with-docker" ⟨"ERR_SOMETHING"⟩
      rfl (by decide) rfl).1 (by decide)
  · exact (c8_parse_error_routing envX reqX "with-docker" ⟨"ERR_INVALID_URL"⟩
      rfl (by decide) rfl).2 rfl (by decide)

end CreateNextApp
